import Mathlib

/-!
Verification of the Inventory_Mgmt repository (KiCad BOM → SQLite stock tracking).

This file gives a shallow embedding, in Lean 4, of the core logic of the two
source files `src/app_cli.py` and `src/app_streamlit.py`:

* the Normalizer helpers (`norm_space`, `norm_value`, `norm_key`, `ref_prefix`,
  `cap_subtype_from_footprint`, `make_part_key`),
* the SQLite data model (`parts`, `stock`, `projects`, `bom_items`) as an
  explicit in-memory database value,
* the operations: part resolution (`get_or_create_part`), BOM import
  (`import_bom` / `import_bom_into_db`), single and batch receive
  (`cmd_receive`, `receive_one`, `cmd_receive_csv`, `receive_csv`),
  the build planner (`cmd_build`, `build_project`) and the shopping list
  (`cmd_shop`, `shop_for_build`).

Modelling conventions:

* Python `str` is modelled by Lean `String` (a wrapper around `List Char`);
  Python whitespace splitting/stripping is modelled over the ASCII whitespace
  characters (exotic Unicode whitespace is out of scope).
* Python's `str.lower()` is modelled on the characters that can actually reach
  it here: ASCII letters and the Greek capital omega (U+03A9) used in the
  sources; Python lowercases U+03A9 to U+03C9.  SQLite's `LOWER()`, used by
  the `WHERE LOWER(...)=?` lookups, folds ASCII only and is modelled
  separately (`sqliteLowerString`).
* SQLite integers are `Int`; row ids are `Nat` handed out by a counter, which
  models `INTEGER PRIMARY KEY AUTOINCREMENT`.
* `fetchone()` on a `SELECT` is first-match lookup (`List.find?`); an SQL
  `UPDATE ... WHERE` is a map over all rows matching the condition, exactly as
  SQL executes it.
* Python's `int(float(s))` / `int(s)` quantity parsing is modelled exactly on
  finite decimal literals (optional sign, digits, optional fraction, optional
  exponent) with truncation toward zero; `inf`/`nan` spellings, digit
  underscores, and values beyond IEEE-double exactness are out of scope.
-/

/-- ASCII whitespace recognised by Python's `str.split()` / `str.strip()`. -/
def pySpace (c : Char) : Bool :=
  c = ' ' || c = '\t' || c = '\n' || c = '\x0d' || c = '\x0b' || c = '\x0c'

/-- Accumulator worker for `pySplit`: `acc` holds the reversed characters of
the word currently being read. -/
def pySplitAux : List Char → List Char → List (List Char)
  | [], acc => if acc = [] then [] else [acc.reverse]
  | c :: cs, acc =>
    if pySpace c then
      if acc = [] then pySplitAux cs [] else acc.reverse :: pySplitAux cs []
    else pySplitAux cs (c :: acc)

/-- Python `s.split()`: maximal runs of non-whitespace characters. -/
def pySplit (l : List Char) : List (List Char) :=
  pySplitAux l []

/-- `norm_space` from both sources: `" ".join((s or "").strip().split())`. -/
def norm_space (s : String) : String :=
  (List.intercalate [' '] (pySplit s.toList)).asString

/-- The `simple_chars` set from `norm_value` (both sources):
`set("0123456789.kKmMuUnNpPfFrRΩohmOHM%")`, with Ω = U+03A9. -/
def simple_chars : List Char :=
  "0123456789.kKmMuUnNpPfFrRΩohmOHM%".toList

/-- Python `str.lower()` on the characters reachable in this program:
ASCII `A`–`Z` map down by 32, the Greek capital omega U+03A9 maps to
U+03C9, everything else is fixed. -/
def pyLowerChar (c : Char) : Char :=
  if 'A' ≤ c ∧ c ≤ 'Z' then Char.ofNat (c.toNat + 32)
  else if c = 'Ω' then 'ω'
  else c

/-- Python `str.lower()` lifted to strings. -/
def pyLowerString (s : String) : String :=
  (s.toList.map pyLowerChar).asString

/-- SQLite's built-in `LOWER()`: ASCII-only case folding — unlike Python's
`str.lower()`, it leaves every non-ASCII character (such as `'Ω'`) alone. -/
def sqliteLowerChar (c : Char) : Char :=
  if 'A' ≤ c ∧ c ≤ 'Z' then Char.ofNat (c.toNat + 32) else c

/-- SQLite `LOWER()` lifted to strings. -/
def sqliteLowerString (s : String) : String :=
  (s.toList.map sqliteLowerChar).asString

/-- Python `s.replace("ohm", "Ω")`: left-to-right, non-overlapping. -/
def replaceOhm : List Char → List Char
  | [] => []
  | [c] => [c]
  | [c, d] => [c, d]
  | c :: d :: e :: rest =>
    if c = 'o' ∧ d = 'h' ∧ e = 'm' then 'Ω' :: replaceOhm rest
    else c :: replaceOhm (d :: e :: rest)

/-- `norm_value` from both sources: whitespace-normalize; if every character
is in `simple_chars`, lowercase and replace `"ohm"` by `"Ω"`; else return the
whitespace-normalized string unchanged.  (The source binds `s = norm_space(s)`
once and then branches; the branches are written out here.) -/
def norm_value (s : String) : String :=
  if norm_space s = "" then norm_space s
  else if (norm_space s).toList.all (fun c => simple_chars.contains c) then
    (replaceOhm ((norm_space s).toList.map pyLowerChar)).asString
  else norm_space s

/-- Python `s.strip()` (ASCII whitespace). -/
def pyStrip (s : String) : String :=
  (((s.toList.dropWhile pySpace).reverse.dropWhile pySpace).reverse).asString

/-- `norm_key` from `app_cli.py`: `(s or "").strip().lower()`. -/
def norm_key (s : String) : String :=
  pyLowerString (pyStrip s)

/-- Python `ch.isalpha()` restricted to ASCII letters (the reference
designators in scope are ASCII). -/
def pyIsAlpha (c : Char) : Bool :=
  ('a' ≤ c ∧ c ≤ 'z') || ('A' ≤ c ∧ c ≤ 'Z')

/-- Python `ch.upper()` on ASCII letters. -/
def pyUpperChar (c : Char) : Char :=
  if 'a' ≤ c ∧ c ≤ 'z' then Char.ofNat (c.toNat - 32) else c

/-- Take the substring of `l` before the first `','` (Python `split(",")[0]`). -/
def beforeComma (l : List Char) : List Char :=
  l.takeWhile (fun c => c ≠ ',')

/-- Maximal leading run of alphabetic characters, upper-cased
(the `for ch in first: if ch.isalpha(): ... else: break` loop). -/
def leadingAlphaUpper : List Char → List Char
  | [] => []
  | c :: cs => if pyIsAlpha c then pyUpperChar c :: leadingAlphaUpper cs else []

/-- `ref_prefix` from both sources (named `ref_pfx` here to satisfy the
identifier rules of this development): strip, take the first comma group,
strip it, take its maximal leading alphabetic run upper-cased; fall back to
`"X"` on empty results. -/
def ref_pfx (reference : String) : String :=
  let r := pyStrip reference
  if r = "" then "X"
  else
    let first := pyStrip (beforeComma r.toList).asString
    let letters := (leadingAlphaUpper first.toList).asString
    if letters = "" then "X" else letters

/-- Python's `pat in s` substring test. -/
def hasInfix : List Char → List Char → Bool
  | [], pat => pat.isEmpty
  | l@(_ :: rest), pat => pat.isPrefixOf l || hasInfix rest pat

/-- `cap_subtype_from_footprint` from both sources: lowercase the footprint,
classify by substring. -/
def cap_subtype_from_footprint (footprint : String) : String :=
  let fp := pyLowerString footprint
  if hasInfix fp.toList "film_box_rect".toList then "film"
  else if hasInfix fp.toList "electro_radial".toList then "electrolytic"
  else "unknown"

/-- `make_part_key`: `f"{prefix}|{value}|{subtype}"` (first argument is the
reference-designator family, called `prefix` in the sources). -/
def make_part_key (pfx value subtype : String) : String :=
  pfx ++ "|" ++ value ++ "|" ++ subtype

-- Sanity checks of the normalizer against the examples in the source
-- docstrings.
example : ref_pfx "R1" = "R" := by decide
example : ref_pfx "RV1" = "RV" := by decide
example : ref_pfx "C12" = "C" := by decide
example : ref_pfx "R1, R2" = "R" := by decide
example : ref_pfx "" = "X" := by decide
example : ref_pfx "12" = "X" := by decide
example : norm_space "  a   b  " = "a b" := by decide
example : cap_subtype_from_footprint "MY_FILM_BOX_Rect_7mm" = "film" := by decide
example : cap_subtype_from_footprint "CP_Electro_Radial_5mm" = "electrolytic" := by decide
example : cap_subtype_from_footprint "C_0805" = "unknown" := by decide
example : make_part_key "C" "100n" "film" = "C|100n|film" := by decide
example : norm_value "10K" = "10k" := by decide
example : norm_value "0.1uF" = "0.1uf" := by decide
example : norm_value "22R" = "22r" := by decide
example : norm_value "100ohm" = "100Ω" := by decide
example : norm_value "B100K linear taper" = "B100K linear taper" := by decide

/-! ## Quantity parsing -/

/-- Value of a list of decimal digits. -/
def digitsToNat (l : List Char) : Nat :=
  l.foldl (fun n c => n * 10 + (c.toNat - 48)) 0

/-- Python `int(s)`: surrounding whitespace allowed, optional sign, then a
nonempty run of digits and nothing else (digit underscores out of scope). -/
def pyInt (s : String) : Option Int :=
  let l0 := ((s.toList.dropWhile pySpace).reverse.dropWhile pySpace).reverse
  let signed : Int × List Char :=
    match l0 with
    | '+' :: r => (1, r)
    | '-' :: r => (-1, r)
    | r => (1, r)
  let l := signed.2
  if l ≠ [] ∧ l.all Char.isDigit then some (signed.1 * (digitsToNat l : Int))
  else none

/-- Python `int(float(s))` on finite decimal literals: optional sign,
`digits[.digits]` or `.digits`, optional exponent; the result is the exact
mathematical value truncated toward zero.  `inf`/`nan` spellings and
beyond-IEEE-exactness magnitudes are out of scope of the model. -/
def pyIntFloat (s : String) : Option Int :=
  let l0 := ((s.toList.dropWhile pySpace).reverse.dropWhile pySpace).reverse
  let signed : Int × List Char :=
    match l0 with
    | '+' :: r => (1, r)
    | '-' :: r => (-1, r)
    | r => (1, r)
  let l := signed.2
  let ip := l.takeWhile Char.isDigit
  let r1 := l.dropWhile Char.isDigit
  let fpr : List Char × List Char :=
    match r1 with
    | '.' :: r => (r.takeWhile Char.isDigit, r.dropWhile Char.isDigit)
    | r => ([], r)
  let fp := fpr.1
  if ip.isEmpty && fp.isEmpty then none
  else
    let expOpt : Option Int :=
      match fpr.2 with
      | [] => some 0
      | 'e' :: r | 'E' :: r =>
        let esigned : Int × List Char :=
          match r with
          | '+' :: q => (1, q)
          | '-' :: q => (-1, q)
          | q => (1, q)
        let ed := esigned.2
        if ed ≠ [] ∧ ed.all Char.isDigit then some (esigned.1 * (digitsToNat ed : Int))
        else none
      | _ => none
    match expOpt with
    | none => none
    | some e =>
      let mant : Nat := digitsToNat (ip ++ fp)
      let k : Int := e - fp.length
      let mag : Nat := if 0 ≤ k then mant * 10 ^ k.toNat else mant / 10 ^ (-k).toNat
      some (signed.1 * (mag : Int))

example : pyIntFloat "1.0" = some 1 := by decide
example : pyIntFloat "-2.5" = some (-2) := by decide
example : pyIntFloat "1e3" = some 1000 := by decide
example : pyIntFloat "abc" = none := by decide
example : pyIntFloat "" = none := by decide
example : pyIntFloat "-5" = some (-5) := by decide
example : pyInt "42" = some 42 := by decide
example : pyInt "-7" = some (-7) := by decide
example : pyInt "1.0" = none := by decide
example : pyInt "abc" = none := by decide

/-! ## Data model

The SQLite schema (identical in both sources).  `parts` and `stock` are
one-to-one — a stock row is created, initialized to zero, in the same unit of
work that creates its part (`get_or_create_part`) and only cascade-deletes
with it — so the model merges them into one row type, mirroring the
`parts JOIN stock` shape used by every query in the sources. -/

structure PartRow where
  part_id : Nat
  part_key : String
  pfx : String
  value : String
  subtype : String
  example_footprint : String
  location : String
  on_hand : Int
  min_stock : Int
deriving DecidableEq, Repr

structure ProjectRow where
  project_id : Nat
  name : String
  source_csv : String
  imported_at : String
deriving DecidableEq, Repr

structure BomItemRow where
  project_id : Nat
  part_id : Nat
  qty_per : Int
deriving DecidableEq, Repr

/-- The database state.  The `next_*` counters model
`INTEGER PRIMARY KEY AUTOINCREMENT`. -/
structure Db where
  parts : List PartRow
  projects : List ProjectRow
  bom_items : List BomItemRow
  next_part_id : Nat
  next_project_id : Nat
deriving DecidableEq, Repr

/-! ## Part identity resolution -/

/-- `get_or_create_part` (both sources): look up by exact `part_key`; if
absent, insert the part row and its zero stock row and return the new id. -/
def get_or_create_part (db : Db) (pfx value subtype footprint : String) :
    Db × Nat :=
  let pkey := make_part_key pfx value subtype
  match db.parts.find? (fun p => p.part_key == pkey) with
  | some p => (db, p.part_id)
  | none =>
    let pid := db.next_part_id
    ({ db with
        parts := db.parts ++
          [{ part_id := pid, part_key := pkey, pfx := pfx, value := value,
             subtype := subtype, example_footprint := footprint,
             location := "", on_hand := 0, min_stock := 0 }],
        next_part_id := pid + 1 },
     pid)

/-! ## BOM reading and import -/

/-- A raw CSV record exposing the five required KiCad BOM columns
(structural header validation, a hard error before any mutation, is handled
by the CSV layer and is out of scope here). -/
structure RawBomRow where
  reference : String
  value : String
  footprint : String
  qty : String
  dnp : String
deriving DecidableEq, Repr

/-- A normalized row as returned by `read_kicad_bom`. -/
structure BomRow where
  ref : String
  val : String
  fp : String
  qty : Int
deriving DecidableEq, Repr

/-- The per-row filtering/normalization of `read_kicad_bom` (both sources):
DNP rows are dropped, fields are normalized, `Qty` is parsed by
`int(float(...))` and must be positive. -/
def read_kicad_bom_rows (raws : List RawBomRow) : List BomRow :=
  raws.filterMap fun row =>
    let dnp := pyStrip row.dnp
    if dnp ≠ "" ∧ ¬ ["0", "false", "no", "n", ""].contains (pyLowerString dnp)
    then none
    else
      let ref := norm_space row.reference
      let val := norm_value row.value
      let fp := norm_space row.footprint
      let qty_raw := pyStrip row.qty
      if qty_raw = "" then none
      else
        match pyIntFloat qty_raw with
        | none => none
        | some q => if q ≤ 0 then none else some ⟨ref, val, fp, q⟩

/-- The project upsert of `import_bom`:
`INSERT ... ON CONFLICT(name) DO UPDATE SET source_csv=..., imported_at=...`
followed by `SELECT project_id ... WHERE name=?`.  `projects.name` is
`UNIQUE`, so updating every row of that name is the single conflicting row. -/
def upsertProject (db : Db) (name src ts : String) : Db × Nat :=
  match db.projects.find? (fun p => p.name == name) with
  | some p =>
    ({ db with
        projects := db.projects.map fun q =>
          if q.name == name then { q with source_csv := src, imported_at := ts }
          else q },
     p.project_id)
  | none =>
    let pid := db.next_project_id
    ({ db with
        projects := db.projects ++ [⟨pid, name, src, ts⟩],
        next_project_id := pid + 1 },
     pid)

/-- `get_or_create_part` restricted to the state it reads and writes: the
parts list and the part-id counter (proved equal to the `Db` version in
`get_or_create_part_core` below). -/
def getOrCreateCore (pst : List PartRow × Nat)
    (pfx value subtype footprint : String) : (List PartRow × Nat) × Nat :=
  let pkey := make_part_key pfx value subtype
  match pst.1.find? (fun p => p.part_key == pkey) with
  | some p => (pst, p.part_id)
  | none =>
    ((pst.1 ++
        [{ part_id := pst.2, part_key := pkey, pfx := pfx, value := value,
           subtype := subtype, example_footprint := footprint,
           location := "", on_hand := 0, min_stock := 0 }],
      pst.2 + 1),
     pst.2)

/-- The per-row body of the import loop on the state it touches
(parts, part-id counter, BOM-item table): derive the designator family
(capacitor subtype only for `"C"`), resolve the part, insert the BOM item.
The insert enforces `PRIMARY KEY(project_id, part_id)` of `bom_items`: when
two BOM rows resolve to the same part, the second `INSERT` raises
`IntegrityError`, which aborts (and rolls back) the whole import. -/
def insertRowsS (st : List PartRow × Nat × List BomItemRow) (proj_id : Nat) :
    List BomRow → Except String (List PartRow × Nat × List BomItemRow)
  | [] => .ok st
  | r :: rest =>
    let pfx := ref_pfx r.ref
    let subtype := if pfx == "C" then cap_subtype_from_footprint r.fp else ""
    let res := getOrCreateCore (st.1, st.2.1) pfx r.val subtype r.fp
    if st.2.2.any (fun b => b.project_id == proj_id && b.part_id == res.2) then
      .error "UNIQUE constraint failed: bom_items.project_id, bom_items.part_id"
    else
      insertRowsS (res.1.1, res.1.2, st.2.2 ++ [⟨proj_id, res.2, r.qty⟩]) proj_id rest

/-- `import_bom` / `import_bom_into_db`: filter + normalize the rows, upsert
the project (with source path `src` and timestamp `ts`), delete the project's
old BOM items, insert the new ones — all in one transaction.  On an
`IntegrityError` the `with con:` transaction rolls back and the exception
propagates: the caller sees the error and the *original* database.  (The
source binds its intermediate results; they are inlined here, and the loop
runs on the state triple it touches, with the projects table passing
through.) -/
def import_bom (db : Db) (project : String) (raws : List RawBomRow)
    (src ts : String) : Except String Unit × Db :=
  match insertRowsS
      ((upsertProject db project src ts).1.parts,
       (upsertProject db project src ts).1.next_part_id,
       (upsertProject db project src ts).1.bom_items.filter fun b =>
         !(b.project_id == (upsertProject db project src ts).2))
      (upsertProject db project src ts).2
      (read_kicad_bom_rows raws) with
  | .ok st =>
    (.ok (), { (upsertProject db project src ts).1 with
        parts := st.1, next_part_id := st.2.1, bom_items := st.2.2 })
  | .error e => (.error e, db)

/-! ## Inventory Ledger: receive -/

/-- `SELECT ... FROM parts WHERE LOWER(part_key)=?` — first match.  The
stored key is folded by SQLite's ASCII-only `LOWER()`; the caller lowers the
input with Python's `str.lower()`.  The two disagree on `'Ω'`, so a stored
key like `"R|100Ω|"` (created by `norm_value "100ohm"`) never matches any
input in the program's receive lookups. -/
def findPartCI (db : Db) (key_norm : String) : Option PartRow :=
  db.parts.find? fun p => sqliteLowerString p.part_key == key_norm

/-- `receive_one` from `app_streamlit.py`: reject `qty ≤ 0`; look the part up
case-insensitively; add `qty` to `on_hand`; overwrite `location` when a
non-blank location is supplied.  Returns the `(ok, message)` pair and the
resulting database. -/
def receive_one (db : Db) (part_key : String) (qty : Int) (location : String) :
    (Bool × String) × Db :=
  if qty ≤ 0 then ((false, "Quantity must be > 0"), db)
  else
    match findPartCI db (norm_key part_key) with
    | none => ((false, "Unknown part_key: " ++ part_key), db)
    | some p =>
      let db1 := { db with
        parts := db.parts.map fun q =>
          if q.part_id == p.part_id then { q with on_hand := q.on_hand + qty }
          else q }
      let db2 :=
        if pyStrip location ≠ "" then
          { db1 with
            parts := db1.parts.map fun q =>
              if q.part_id == p.part_id then { q with location := pyStrip location }
              else q }
        else db1
      ((true, "Added " ++ toString qty ++ " to " ++ p.part_key), db2)

/-- `cmd_receive` from `app_cli.py`: the CLI performs no validation of `qty`
(argparse only coerces it to an integer); unknown keys abort via
`SystemExit`; a supplied non-empty `--loc` overwrites `location` verbatim. -/
def cmd_receive (db : Db) (part_key : String) (qty : Int) (loc : Option String) :
    Except String Unit × Db :=
  match findPartCI db (norm_key part_key) with
  | none => (.error ("Unknown part_key: " ++ part_key), db)
  | some p =>
    let db1 := { db with
      parts := db.parts.map fun q =>
        if q.part_id == p.part_id then { q with on_hand := q.on_hand + qty }
        else q }
    let db2 :=
      match loc with
      | some l =>
        if l ≠ "" then
          { db1 with
            parts := db1.parts.map fun q =>
              if q.part_id == p.part_id then { q with location := l } else q }
        else db1
      | none => db1
    (.ok (), db2)

/-- A record of a batch-receive CSV (`part_key, qty` required, `location`
optional — an absent column reads as the empty string). -/
structure RecvRow where
  part_key : String
  qty : String
  location : String
deriving DecidableEq, Repr

/-- The `qty` component of a skipped-row report in `receive_csv`: the raw
string when parsing failed, the parsed integer when the key was unknown
(the source appends the heterogeneous tuples `(pkey, qty_raw, reason)` and
`(pkey, qty, reason)`). -/
inductive SkipQty
  | raw (s : String)
  | parsed (n : Int)
deriving DecidableEq, Repr

structure RecvSummary where
  applied : Nat
  skipped : List (String × SkipQty × String)
  matched : List (String × String)
deriving DecidableEq, Repr

/-- One iteration of the `receive_csv` loop from `app_streamlit.py`. -/
def recvStep (acc : RecvSummary × Db) (row : RecvRow) : RecvSummary × Db :=
  let res := acc.1
  let db := acc.2
  let pkey := pyStrip row.part_key
  let qty_raw := pyStrip row.qty
  let loc := pyStrip row.location
  if pkey = "" ∨ qty_raw = "" then (res, db)
  else
    match pyIntFloat qty_raw with
    | none =>
      ({ res with skipped := res.skipped ++ [(pkey, .raw qty_raw, "qty not an integer")] }, db)
    | some qty =>
      if qty = 0 then (res, db)
      else
        match db.parts.find? (fun p => sqliteLowerString p.part_key == pyLowerString pkey) with
        | none =>
          ({ res with skipped := res.skipped ++ [(pkey, .parsed qty, "unknown part_key")] }, db)
        | some p =>
          let db1 := { db with
            parts := db.parts.map fun q =>
              if q.part_id == p.part_id then { q with on_hand := q.on_hand + qty }
              else q }
          let db2 :=
            if loc ≠ "" then
              { db1 with
                parts := db1.parts.map fun q =>
                  if q.part_id == p.part_id then { q with location := loc } else q }
            else db1
          let res1 := { res with applied := res.applied + 1 }
          let res2 :=
            if pyLowerString p.part_key ≠ pyLowerString pkey then
              { res1 with matched := res1.matched ++ [(pkey, p.part_key)] }
            else res1
          (res2, db2)

/-- `receive_csv` from `app_streamlit.py`: apply each row independently
within one transaction, skipping and reporting rows with an unparseable
quantity or an unknown `part_key` (rows with a blank key/quantity, or a
quantity of zero, are silently ignored). -/
def receive_csv (db : Db) (rows : List RecvRow) : RecvSummary × Db :=
  rows.foldl recvStep (⟨0, [], []⟩, db)

/-- The parsing pre-pass of `cmd_receive_csv` from `app_cli.py`: every row's
`qty` goes through Python `int(...)` *before* any database work; an
unparseable quantity raises `ValueError` and aborts the whole command. -/
def cliParseRecvRows : List RecvRow → Except String (List (String × Int × String))
  | [] => .ok []
  | r :: rest =>
    match pyInt r.qty with
    | none => .error ("invalid literal for int(): " ++ r.qty)
    | some q =>
      match cliParseRecvRows rest with
      | .error e => .error e
      | .ok l => .ok ((pyStrip r.part_key, q, pyStrip r.location) :: l)

/-- The application loop of `cmd_receive_csv`: unknown keys are skipped with
a printed warning; known keys get `on_hand` incremented (by any integer,
including zero or negative) and `location` overwritten when non-empty. -/
def cliApplyRecvRows (db : Db) : List (String × Int × String) → List String × Db
  | [] => ([], db)
  | (pkey, qty, loc) :: rest =>
    match findPartCI db (norm_key pkey) with
    | none =>
      let res := cliApplyRecvRows db rest
      (("Skipping unknown part_key: " ++ pkey) :: res.1, res.2)
    | some p =>
      let db1 := { db with
        parts := db.parts.map fun q =>
          if q.part_id == p.part_id then { q with on_hand := q.on_hand + qty }
          else q }
      let db2 :=
        if loc ≠ "" then
          { db1 with
            parts := db1.parts.map fun q =>
              if q.part_id == p.part_id then { q with location := loc } else q }
        else db1
      cliApplyRecvRows db2 rest |> fun res => (res.1, res.2)

/-- `cmd_receive_csv` from `app_cli.py`.  On success the reported count is
`len(rows)` — all parsed rows, the skipped ones included — exactly as the
final `print` of the source does. -/
def cmd_receive_csv (db : Db) (rows : List RecvRow) :
    Except String (Nat × List String) × Db :=
  match cliParseRecvRows rows with
  | .error e => (.error e, db)
  | .ok parsed =>
    let res := cliApplyRecvRows db parsed
    (.ok (parsed.length, res.1), res.2)

-- The LOWER() divergence on program-created Ω keys: a part whose key holds
-- 'Ω' (as produced by norm_value "100ohm") can never be received — SQLite's
-- ASCII LOWER() of the stored key keeps 'Ω' while Python lowers the input's
-- 'Ω' to 'ω', so the lookup misses on every spelling of the input.
example :
    (receive_one
      { parts := [{ part_id := 1, part_key := "R|100Ω|", pfx := "R",
                    value := "100Ω", subtype := "", example_footprint := "",
                    location := "", on_hand := 0, min_stock := 0 }],
        projects := [], bom_items := [], next_part_id := 2, next_project_id := 1 }
      "R|100Ω|" 5 "").1.1 = false ∧
    (receive_csv
      { parts := [{ part_id := 1, part_key := "R|100Ω|", pfx := "R",
                    value := "100Ω", subtype := "", example_footprint := "",
                    location := "", on_hand := 0, min_stock := 0 }],
        projects := [], bom_items := [], next_part_id := 2, next_project_id := 1 }
      [⟨"R|100Ω|", "5", ""⟩]).1.skipped =
      [("R|100Ω|", SkipQty.parsed 5, "unknown part_key")] := by
  decide

/-! ## Build planner and shopping list -/

/-- One row of the `bom_items JOIN parts JOIN stock` query used by both the
build and the shop commands. -/
structure BuildItem where
  part_id : Nat
  part_key : String
  value : String
  subtype : String
  qty_per : Int
  on_hand : Int
deriving DecidableEq, Repr

/-- The join loading a project's BOM with current stock.  The `ORDER BY
prefix, value, subtype` of the sources only orders the display; the model
keeps `bom_items` order. -/
def buildItems (db : Db) (proj_id : Nat) : List BuildItem :=
  (db.bom_items.filter fun b => b.project_id == proj_id).filterMap fun b =>
    (db.parts.find? fun p => p.part_id == b.part_id).map fun p =>
      ⟨p.part_id, p.part_key, p.value, p.subtype, b.qty_per, p.on_hand⟩

structure ShortRow where
  part_key : String
  value : String
  subtype : String
  needed : Int
  on_hand : Int
  short_by : Int
deriving DecidableEq, Repr

/-- The pre-check pass shared by both build surfaces: a shortage row is
recorded for every item whose projected stock `on_hand - qty_per*qty` is
negative, with `short_by` the negated projection. -/
def shortagesOf (items : List BuildItem) (qty : Int) : List ShortRow :=
  items.filterMap fun it =>
    let need := it.qty_per * qty
    if it.on_hand - need < 0 then
      some ⟨it.part_key, it.value, it.subtype, need, it.on_hand, -(it.on_hand - need)⟩
    else none

/-- The deduction list recorded by the pre-check pass. -/
def deductionsOf (items : List BuildItem) (qty : Int) : List (Nat × Int) :=
  items.map fun it => (it.part_id, it.qty_per * qty)

/-- `UPDATE stock SET on_hand = on_hand - ? WHERE part_id=?` for every
pending deduction, in order, inside one transaction. -/
def applyDeductions (db : Db) (ds : List (Nat × Int)) : Db :=
  ds.foldl
    (fun d pn =>
      { d with
        parts := d.parts.map fun p =>
          if p.part_id == pn.1 then { p with on_hand := p.on_hand - pn.2 }
          else p })
    db

structure BuildResult where
  project : String
  qty : Int
  shortages : List ShortRow
  deducted : Bool
deriving DecidableEq, Repr

/-- `SELECT project_id, name FROM projects WHERE LOWER(name)=?`. -/
def findProjCI (db : Db) (name_norm : String) : Option ProjectRow :=
  db.projects.find? fun p => pyLowerString p.name == name_norm

/-- `build_project` from `app_streamlit.py`: normalize the project name,
reject `qty ≤ 0`, resolve the project case-insensitively, run the two-phase
compute-then-commit build.  With shortages and `force` unset it returns
`deducted = false` and the untouched database; otherwise it applies every
deduction and returns `deducted = true` with the shortage list attached. -/
def build_project (db : Db) (project : String) (qty : Int) (force : Bool) :
    Except String BuildResult × Db :=
  let proj_norm := pyLowerString (pyStrip project)
  if qty ≤ 0 then (.error "Build quantity must be > 0", db)
  else
    match findProjCI db proj_norm with
    | none => (.error ("Unknown project: " ++ proj_norm), db)
    | some pr =>
      let items := buildItems db pr.project_id
      let shorts := shortagesOf items qty
      if shorts ≠ [] ∧ ¬ force then
        (.ok ⟨pr.name, qty, shorts, false⟩, db)
      else
        (.ok ⟨pr.name, qty, shorts, true⟩, applyDeductions db (deductionsOf items qty))

/-- `cmd_build` from `app_cli.py`: lowercase the project name, look it up by
exact `name`, fail when it has no BOM items, then the same two-phase build —
but with **no** validation of the build quantity.  A blocked build exits with
code 2; a successful one reports the shortage list (non-empty under
`--force`). -/
def cmd_build (db : Db) (project : String) (qty : Int) (force : Bool) :
    Except String (List ShortRow) × Db :=
  let proj := pyLowerString project
  match db.projects.find? (fun p => p.name == proj) with
  | none => (.error ("Unknown project: " ++ proj), db)
  | some pr =>
    let items := buildItems db pr.project_id
    if items = [] then (.error ("Project '" ++ proj ++ "' has no BOM items."), db)
    else
      let shorts := shortagesOf items qty
      if shorts ≠ [] ∧ ¬ force then
        (.error "Build would cause negative inventory (exit 2)", db)
      else
        (.ok shorts, applyDeductions db (deductionsOf items qty))

structure ShopRow where
  part_key : String
  value : String
  subtype : String
  needed : Int
  on_hand : Int
  to_order : Int
deriving DecidableEq, Repr

/-- The shopping-list traversal: `to_order = max(0, need - on_hand)`, keeping
only rows with `to_order > 0`. -/
def shopRows (items : List BuildItem) (qty : Int) : List ShopRow :=
  items.filterMap fun it =>
    let need := it.qty_per * qty
    let to_order := max 0 (need - it.on_hand)
    if to_order > 0 then
      some ⟨it.part_key, it.value, it.subtype, need, it.on_hand, to_order⟩
    else none

/-- `shop_for_build` from `app_streamlit.py`: reject `qty ≤ 0`, resolve the
project case-insensitively, return the shopping rows.  The database flows
through unchanged: the source executes only `SELECT` statements here. -/
def shop_for_build (db : Db) (project : String) (qty : Int) :
    Except String (String × Int × List ShopRow) × Db :=
  let proj_norm := pyLowerString (pyStrip project)
  if qty ≤ 0 then (.error "Build quantity must be > 0", db)
  else
    match findProjCI db proj_norm with
    | none => (.error ("Unknown project: " ++ proj_norm), db)
    | some pr => (.ok (pr.name, qty, shopRows (buildItems db pr.project_id) qty), db)

/-- `cmd_shop` from `app_cli.py`: lowercase the project name, look it up by
exact `name`, return the shopping rows — with no validation of `qty` and no
database mutation (only `SELECT` statements run). -/
def cmd_shop (db : Db) (project : String) (qty : Int) :
    Except String (List ShopRow) × Db :=
  let proj := pyLowerString project
  match db.projects.find? (fun p => p.name == proj) with
  | none => (.error ("Unknown project: " ++ proj), db)
  | some pr => (.ok (shopRows (buildItems db pr.project_id) qty), db)

/-- Decidable equality for `Except`, used to settle closed statements about
operation results by evaluation. -/
instance {e a : Type} [DecidableEq e] [DecidableEq a] : DecidableEq (Except e a)
  | .error x, .error y =>
    if h : x = y then .isTrue (by rw [h]) else .isFalse (by simp [h])
  | .error _, .ok _ => .isFalse (by simp)
  | .ok _, .error _ => .isFalse (by simp)
  | .ok x, .ok y =>
    if h : x = y then .isTrue (by rw [h]) else .isFalse (by simp [h])

/-! ## Sanity checks: the concrete scenario of the specification

Reference `"C12"`, value `"100N"`, footprint containing `"Film_Box_Rect"`
gives part key `"C|100n|film"`; project `"seaholm"` with `qty_per = 2`,
`on_hand = 1`, `buildQty = 1` blocks with `short_by = 1` unless forced. -/

/-- A tiny concrete database used by the sanity checks and witnesses. -/
def seaDb : Db :=
  { parts := [{ part_id := 1, part_key := "C|100n|film", pfx := "C",
                value := "100n", subtype := "film",
                example_footprint := "C_Film_Box_Rect_L7mm", location := "",
                on_hand := 1, min_stock := 0 }],
    projects := [{ project_id := 1, name := "seaholm", source_csv := "a.csv",
                   imported_at := "t" }],
    bom_items := [{ project_id := 1, part_id := 1, qty_per := 2 }],
    next_part_id := 2, next_project_id := 2 }

example :
    make_part_key (ref_pfx "C12") (norm_value "100N")
      (cap_subtype_from_footprint "C_Film_Box_Rect_L7mm") = "C|100n|film" := by
  decide

example :
    build_project seaDb "seaholm" 1 false =
      (.ok { project := "seaholm", qty := 1,
             shortages := [⟨"C|100n|film", "100n", "film", 2, 1, 1⟩],
             deducted := false }, seaDb) := by
  decide

example :
    (build_project seaDb "seaholm" 1 true).2.parts.map PartRow.on_hand = [-1] ∧
    (build_project seaDb "seaholm" 1 true).1 =
      .ok { project := "seaholm", qty := 1,
            shortages := [⟨"C|100n|film", "100n", "film", 2, 1, 1⟩],
            deducted := true } := by
  decide

example :
    cmd_build seaDb "Seaholm" 1 false =
      (.error "Build would cause negative inventory (exit 2)", seaDb) := by
  decide

example :
    shop_for_build seaDb "seaholm" 1 =
      (.ok ("seaholm", 1, [⟨"C|100n|film", "100n", "film", 2, 1, 1⟩]), seaDb) := by
  decide

example :
    (receive_one seaDb "c|100N|FILM " 5 "").2.parts.map PartRow.on_hand = [6] := by
  decide

/-! ## Claims -/

/-- C8 counterexample: the claim asserts `normalizeValue("100 ohm") = "100 Ω"`,
but the space in `"100 ohm"` is not in `simple_chars`, so the simple-value
branch is not taken and the input is returned unchanged. -/
theorem C8_counterexample :
    norm_value "100 ohm" = "100 ohm" ∧ norm_value "100 ohm" ≠ "100 Ω" := by
  decide

/-- C8 (amended): `norm_value` maps each of `"10K"`, `" 10k "` and `"10k"` to
`"10k"`, but maps `"100 ohm"` to itself (the embedded space puts it outside
the simple-value alphabet, so only whitespace normalization applies); the
space-free spelling `"100ohm"` is the one mapped to `"100Ω"`. -/
theorem C8_norm_value_stability :
    norm_value "10K" = "10k" ∧ norm_value " 10k " = "10k" ∧
    norm_value "10k" = "10k" ∧ norm_value "100 ohm" = "100 ohm" ∧
    norm_value "100ohm" = "100Ω" := by
  decide

/-- C5 counterexample: the CLI build command performs no validation of the
build quantity.  On a database with one project and one BOM item
(`qty_per = 2`, `on_hand = 1`), building `-1` units does not fail: it
reaches the deduction phase and *adds* `2` to the ledger. -/
theorem C5_counterexample :
    (cmd_build seaDb "seaholm" (-1) false).1 = .ok [] ∧
    (cmd_build seaDb "seaholm" (-1) false).2.parts.map PartRow.on_hand = [3] ∧
    seaDb.parts.map PartRow.on_hand = [1] := by
  decide

/-- C5 (amended): the Streamlit build operation (`build_project`) rejects
every `buildQty ≤ 0` with a caller-visible error and performs no ledger
mutation; the CLI build (`cmd_build`) performs no such validation and
proceeds to the deduction phase. -/
theorem C5_streamlit_build_rejects_nonpositive (db : Db) (project : String)
    (qty : Int) (force : Bool) (h : qty ≤ 0) :
    build_project db project qty force = (.error "Build quantity must be > 0", db) := by
  unfold build_project
  simp [h]

/-- Witness for `C5_streamlit_build_rejects_nonpositive` at `qty = 0`. -/
theorem C5_witness :
    (0 : Int) ≤ 0 ∧
    build_project seaDb "seaholm" 0 true = (.error "Build quantity must be > 0", seaDb) :=
  ⟨le_refl 0, C5_streamlit_build_rejects_nonpositive seaDb "seaholm" 0 true (le_refl 0)⟩

/-- C6 counterexample: the CLI receive command performs no validation of
`qty`.  Receiving `-5` of an existing part succeeds and decreases its
`on_hand` from `1` to `-4` instead of rejecting the request. -/
theorem C6_counterexample :
    (cmd_receive seaDb "C|100n|film" (-5) none).1 = .ok () ∧
    (cmd_receive seaDb "C|100n|film" (-5) none).2.parts.map PartRow.on_hand = [-4] ∧
    seaDb.parts.map PartRow.on_hand = [1] := by
  decide

/-- C6 (amended): the Streamlit receive operation (`receive_one`) rejects
every `qty ≤ 0`, leaving the database (hence every `on_hand` and `location`)
unchanged; for `qty > 0` with a case-insensitively matching part it reports
success and adds `qty` to exactly that part's `on_hand`.  The CLI receive
command applies any `qty` without validation. -/
theorem C6_receive_validation :
    (∀ (db : Db) (part_key location : String) (qty : Int), qty ≤ 0 →
      receive_one db part_key qty location = ((false, "Quantity must be > 0"), db)) ∧
    (∀ (db : Db) (part_key location : String) (qty : Int) (p : PartRow),
      0 < qty → findPartCI db (norm_key part_key) = some p →
      (receive_one db part_key qty location).1.1 = true ∧
      (receive_one db part_key qty location).2.parts.map (fun q => (q.part_id, q.on_hand)) =
        db.parts.map (fun q =>
          (q.part_id, if q.part_id == p.part_id then q.on_hand + qty else q.on_hand))) := by
  constructor
  · intro db part_key location qty h
    unfold receive_one
    simp [h]
  · intro db part_key location qty p hq hp
    unfold receive_one
    rw [if_neg (by omega)]
    simp only [hp]
    refine ⟨trivial, ?_⟩
    split <;>
    · simp only [List.map_map]
      apply List.map_congr_left
      intro q _
      by_cases hid : q.part_id = p.part_id <;> simp [hid]

/-- Witness for `C6_receive_validation`: both halves at concrete inputs on
`seaDb`. -/
theorem C6_witness :
    receive_one seaDb "C|100n|film" 0 "" = ((false, "Quantity must be > 0"), seaDb) ∧
    (receive_one seaDb "c|100N|film" 5 "").2.parts.map (fun q => (q.part_id, q.on_hand)) =
      [(1, 6)] := by
  constructor
  · exact C6_receive_validation.1 seaDb "C|100n|film" "" 0 (le_refl 0)
  · have h := (C6_receive_validation.2 seaDb "c|100N|film" "" 5
      { part_id := 1, part_key := "C|100n|film", pfx := "C", value := "100n",
        subtype := "film", example_footprint := "C_Film_Box_Rect_L7mm",
        location := "", on_hand := 1, min_stock := 0 } (by decide) (by decide)).2
    rw [h]
    decide

/-- One `receive_csv` loop iteration only ever *appends* to the running
summary: its effect from an arbitrary accumulator is the effect from the
empty accumulator, prefixed. -/
theorem recvStep_shift (res : RecvSummary) (db : Db) (r : RecvRow) :
    recvStep (res, db) r =
      (⟨res.applied + (recvStep (⟨0, [], []⟩, db) r).1.applied,
        res.skipped ++ (recvStep (⟨0, [], []⟩, db) r).1.skipped,
        res.matched ++ (recvStep (⟨0, [], []⟩, db) r).1.matched⟩,
       (recvStep (⟨0, [], []⟩, db) r).2) := by
  unfold recvStep
  dsimp only
  split
  · simp
  · split
    · simp
    · split
      · simp
      · split
        · simp
        · split <;> simp

/-- Folding the `receive_csv` loop from an arbitrary accumulator equals the
run from the empty accumulator with the prior summary prefixed. -/
theorem receive_csv_fold_shift (rows : List RecvRow) :
    ∀ st : RecvSummary × Db,
      List.foldl recvStep st rows =
        (⟨st.1.applied + (receive_csv st.2 rows).1.applied,
          st.1.skipped ++ (receive_csv st.2 rows).1.skipped,
          st.1.matched ++ (receive_csv st.2 rows).1.matched⟩,
         (receive_csv st.2 rows).2) := by
  induction rows with
  | nil => intro st; simp [receive_csv]
  | cons r rest ih =>
    intro st
    have hstep : recvStep st r = recvStep (st.1, st.2) r := rfl
    simp only [receive_csv, List.foldl_cons]
    rw [hstep, recvStep_shift st.1 st.2 r, ih, ih]
    simp [Nat.add_assoc, List.append_assoc]

/-- C7 counterexample: in the CLI batch receive, every row's quantity goes
through Python `int(...)` before any row is applied, so a single unparseable
quantity aborts the whole command — the remaining (valid) rows are *not*
applied and the database is untouched.  The Streamlit surface, by contrast,
skips the bad row and applies the valid one. -/
theorem C7_counterexample :
    cmd_receive_csv seaDb [⟨"C|100n|film", "abc", ""⟩, ⟨"C|100n|film", "5", ""⟩] =
      (.error "invalid literal for int(): abc", seaDb) ∧
    (receive_csv seaDb [⟨"C|100n|film", "abc", ""⟩, ⟨"C|100n|film", "5", ""⟩]).1.applied = 1 ∧
    (receive_csv seaDb [⟨"C|100n|film", "abc", ""⟩, ⟨"C|100n|film", "5", ""⟩]).2.parts.map
      PartRow.on_hand = [6] := by
  decide

/-- C7 (amended): in the Streamlit batch receive (`receive_csv`) each row is
processed independently: a row with an unparseable quantity, or with a parsed
non-zero quantity whose `part_key` has no case-insensitive match, is skipped
— the remaining rows are processed exactly as if the bad row were absent —
and is individually reported with its reason in the skipped list the caller
receives together with the applied count.  (The CLI batch receive instead
aborts on the first unparseable quantity.) -/
theorem C7_streamlit_batch_skips (db : Db) (r : RecvRow) (rest : List RecvRow) :
    (pyStrip r.part_key ≠ "" → pyStrip r.qty ≠ "" →
      pyIntFloat (pyStrip r.qty) = none →
      receive_csv db (r :: rest) =
        (⟨(receive_csv db rest).1.applied,
          (pyStrip r.part_key, SkipQty.raw (pyStrip r.qty), "qty not an integer")
            :: (receive_csv db rest).1.skipped,
          (receive_csv db rest).1.matched⟩,
         (receive_csv db rest).2)) ∧
    (∀ q : Int, pyStrip r.part_key ≠ "" →
      pyIntFloat (pyStrip r.qty) = some q → q ≠ 0 →
      db.parts.find? (fun p => sqliteLowerString p.part_key == pyLowerString (pyStrip r.part_key)) = none →
      receive_csv db (r :: rest) =
        (⟨(receive_csv db rest).1.applied,
          (pyStrip r.part_key, SkipQty.parsed q, "unknown part_key")
            :: (receive_csv db rest).1.skipped,
          (receive_csv db rest).1.matched⟩,
         (receive_csv db rest).2)) := by
  constructor
  · intro hk hq hparse
    have hstep : recvStep (⟨0, [], []⟩, db) r =
        (⟨0, [(pyStrip r.part_key, SkipQty.raw (pyStrip r.qty), "qty not an integer")], []⟩, db) := by
      unfold recvStep
      dsimp only
      rw [if_neg (by simp [hk, hq]), hparse]
      simp
    show List.foldl recvStep (recvStep (⟨0, [], []⟩, db) r) rest = _
    rw [hstep, receive_csv_fold_shift]
    simp
  · intro q hk hparse hq0 hfind
    have hq : pyStrip r.qty ≠ "" := by
      intro h
      rw [h, show pyIntFloat "" = none from by decide] at hparse
      exact Option.noConfusion hparse
    have hstep : recvStep (⟨0, [], []⟩, db) r =
        (⟨0, [(pyStrip r.part_key, SkipQty.parsed q, "unknown part_key")], []⟩, db) := by
      unfold recvStep
      dsimp only
      rw [if_neg (by simp [hk, hq]), hparse]
      dsimp only
      rw [if_neg hq0, hfind]
      simp
    show List.foldl recvStep (recvStep (⟨0, [], []⟩, db) r) rest = _
    rw [hstep, receive_csv_fold_shift]
    simp

/-- The single part row of `seaDb` with a given `on_hand`, for stating
witnesses compactly. -/
def seaPart (n : Int) : PartRow :=
  { part_id := 1, part_key := "C|100n|film", pfx := "C", value := "100n",
    subtype := "film", example_footprint := "C_Film_Box_Rect_L7mm",
    location := "", on_hand := n, min_stock := 0 }

/-- Witness for `C7_streamlit_batch_skips`: a bad-quantity row, then an
unknown-key row, each followed by a row that is still applied. -/
theorem C7_witness :
    receive_csv seaDb [⟨"k", "abc", ""⟩, ⟨"C|100N|FILM", "2", ""⟩] =
      (⟨1, [("k", SkipQty.raw "abc", "qty not an integer")], []⟩,
       { seaDb with parts := [seaPart 3] }) ∧
    receive_csv seaDb [⟨"R|10k|", "7", ""⟩] =
      (⟨0, [("R|10k|", SkipQty.parsed 7, "unknown part_key")], []⟩, seaDb) := by
  constructor
  · have h := (C7_streamlit_batch_skips seaDb ⟨"k", "abc", ""⟩ [⟨"C|100N|FILM", "2", ""⟩]).1
      (by decide) (by decide) (by decide)
    rw [h]
    decide
  · have h := (C7_streamlit_batch_skips seaDb ⟨"R|10k|", "7", ""⟩ []).2 7
      (by decide) (by decide) (by decide) (by decide)
    rw [h]
    decide

/-- C10: in the Streamlit batch receive, a row whose quantity parses to a
negative integer and whose `part_key` matches an existing part is neither
skipped nor rejected: it counts as applied and its (negative) quantity is
added to the part's `on_hand`, so batch receive can decrement stock. -/
theorem C10_batch_receive_negative (db : Db) (pk qraw loc : String) (q : Int)
    (p : PartRow)
    (hk : pyStrip pk ≠ "")
    (hparse : pyIntFloat (pyStrip qraw) = some q) (hneg : q < 0)
    (hfind : db.parts.find? (fun r => sqliteLowerString r.part_key == pyLowerString (pyStrip pk)) = some p) :
    (receive_csv db [⟨pk, qraw, loc⟩]).1.applied = 1 ∧
    (receive_csv db [⟨pk, qraw, loc⟩]).1.skipped = [] ∧
    (receive_csv db [⟨pk, qraw, loc⟩]).2.parts.map (fun r => (r.part_id, r.on_hand)) =
      db.parts.map (fun r =>
        (r.part_id, if r.part_id == p.part_id then r.on_hand + q else r.on_hand)) ∧
    p.on_hand + q < p.on_hand := by
  have hq : pyStrip qraw ≠ "" := by
    intro h
    rw [h, show pyIntFloat "" = none from by decide] at hparse
    exact Option.noConfusion hparse
  have hstep : receive_csv db [⟨pk, qraw, loc⟩] = recvStep (⟨0, [], []⟩, db) ⟨pk, qraw, loc⟩ := rfl
  rw [hstep]
  unfold recvStep
  dsimp only
  rw [if_neg (by simp [hk, hq]), hparse]
  dsimp only
  rw [if_neg (by omega), hfind]
  dsimp only
  refine ⟨by split <;> rfl, by split <;> rfl, ?_, by omega⟩
  split <;>
  · simp only [List.map_map]
    apply List.map_congr_left
    intro r _
    by_cases hid : r.part_id = p.part_id <;> simp [hid]

/-- Witness for `C10_batch_receive_negative` on `seaDb` with quantity `-5`. -/
theorem C10_witness :
    (receive_csv seaDb [⟨"c|100n|FILM", "-5", "Bin 3"⟩]).1.applied = 1 ∧
    (receive_csv seaDb [⟨"c|100n|FILM", "-5", "Bin 3"⟩]).2.parts.map
      (fun r => (r.part_id, r.on_hand)) = [(1, -4)] := by
  have h := C10_batch_receive_negative seaDb "c|100n|FILM" "-5" "Bin 3" (-5)
    (seaPart 1) (by decide) (by decide) (by decide) (by decide)
  refine ⟨h.1, ?_⟩
  rw [h.2.2.1]
  decide

/-! ## Build-planner lemmas -/

/-- Net deduction a pending-deduction list records against one part id. -/
def needSum : List (Nat × Int) → Nat → Int
  | [], _ => 0
  | d :: ds, pid => (if d.1 == pid then d.2 else 0) + needSum ds pid

/-- Applying the pending deductions subtracts, from every part, the net
deduction recorded against its id, and touches nothing else. -/
theorem applyDeductions_eq (ds : List (Nat × Int)) :
    ∀ db : Db, applyDeductions db ds =
      { db with parts := db.parts.map fun p =>
          { p with on_hand := p.on_hand - needSum ds p.part_id } } := by
  induction ds with
  | nil =>
    intro db
    show db = _
    simp only [needSum, sub_zero]
    rw [List.map_id'' (fun p => rfl)]
  | cons d ds ih =>
    intro db
    show applyDeductions _ ds = _
    rw [ih]
    simp only [List.map_map]
    congr 1
    apply List.map_congr_left
    intro p _
    by_cases hid : p.part_id = d.1
    · simp [needSum, hid, Function.comp, sub_sub]
    · simp [needSum, hid, Ne.symm hid, Function.comp]

/-- A part id absent from a deduction list accumulates no deduction. -/
theorem needSum_not_mem (ds : List (Nat × Int)) (pid : Nat)
    (h : pid ∉ ds.map Prod.fst) : needSum ds pid = 0 := by
  induction ds with
  | nil => rfl
  | cons d ds ih =>
    simp only [List.map_cons, List.mem_cons, not_or] at h
    simp [needSum, Ne.symm h.1, ih h.2]

/-- With pairwise-distinct part ids (the `PRIMARY KEY(project_id, part_id)`
of `bom_items`), the net deduction against an item's part is exactly its own
`qty_per * qty`. -/
theorem needSum_deductionsOf (qty : Int) (it : BuildItem) :
    ∀ items : List BuildItem, it ∈ items →
      (items.map BuildItem.part_id).Nodup →
      needSum (deductionsOf items qty) it.part_id = it.qty_per * qty := by
  intro items
  induction items with
  | nil => intro h; cases h
  | cons a rest ih =>
    intro hmem hnd
    simp only [List.map_cons, List.nodup_cons] at hnd
    rcases List.mem_cons.mp hmem with rfl | hmem'
    · have h0 : needSum (deductionsOf rest qty) it.part_id = 0 := by
        apply needSum_not_mem
        simpa [deductionsOf, List.map_map, Function.comp] using hnd.1
      simp only [deductionsOf] at h0
      simp [deductionsOf, needSum, h0]
    · have hne : a.part_id ≠ it.part_id := by
        intro h
        exact hnd.1 (h ▸ List.mem_map_of_mem BuildItem.part_id hmem')
      have := ih hmem' hnd.2
      simp only [deductionsOf, List.map_cons, needSum] at this ⊢
      simp [hne, this]

/-- Re-querying a project's BOM after the deductions shows every joined
item's `on_hand` lowered by its net deduction. -/
theorem buildItems_applyDeductions (db : Db) (ds : List (Nat × Int)) (P : Nat) :
    buildItems (applyDeductions db ds) P =
      (buildItems db P).map fun it =>
        { it with on_hand := it.on_hand - needSum ds it.part_id } := by
  rw [applyDeductions_eq]
  unfold buildItems
  dsimp only
  rw [List.map_filterMap]
  apply List.filterMap_congr
  intro b _
  rw [List.find?_map]
  rw [Option.map_map, Option.map_map]
  rfl

/-- C1: for a resolvable project and positive build quantity, if any BOM item
has `on_hand < qty_per * buildQty`, the build with `force` unset returns
`deducted = false` with a non-empty shortage list and hands back the database
unchanged — no ledger mutation occurs. -/
theorem C1_build_blocks_on_shortage (db : Db) (project : String) (qty : Int)
    (pr : ProjectRow) (hq : 0 < qty)
    (hp : findProjCI db (pyLowerString (pyStrip project)) = some pr)
    (hshort : ∃ it ∈ buildItems db pr.project_id, it.on_hand < it.qty_per * qty) :
    build_project db project qty false =
      (.ok ⟨pr.name, qty, shortagesOf (buildItems db pr.project_id) qty, false⟩, db) ∧
    shortagesOf (buildItems db pr.project_id) qty ≠ [] := by
  obtain ⟨it, hmem, hlt⟩ := hshort
  have hne : shortagesOf (buildItems db pr.project_id) qty ≠ [] := by
    apply List.ne_nil_of_mem (a :=
      (⟨it.part_key, it.value, it.subtype, it.qty_per * qty, it.on_hand,
        -(it.on_hand - it.qty_per * qty)⟩ : ShortRow))
    unfold shortagesOf
    apply List.mem_filterMap.mpr
    refine ⟨it, hmem, ?_⟩
    dsimp only
    rw [if_pos (by omega)]
  refine ⟨?_, hne⟩
  unfold build_project
  rw [if_neg (by omega)]
  simp [hp, hne]

/-- Witness for `C1_build_blocks_on_shortage` on the concrete scenario
database. -/
theorem C1_witness :
    build_project seaDb "seaholm" 1 false =
      (.ok ⟨"seaholm", 1, [⟨"C|100n|film", "100n", "film", 2, 1, 1⟩], false⟩,
       seaDb) := by
  have h := (C1_build_blocks_on_shortage seaDb "seaholm" 1
    ⟨1, "seaholm", "a.csv", "t"⟩ (by decide) (by decide) (by decide)).1
  rw [h]
  decide

/-- C2: for a resolvable project, positive build quantity and pairwise
distinct BOM part ids (guaranteed by `PRIMARY KEY(project_id, part_id)` in
the schema), the forced build returns `deducted = true`; its shortage list is
exactly the items with `on_hand < need`, each reported with
`short_by = need - on_hand`; every BOM item's part has `need = qty_per * qty`
deducted (re-querying the BOM shows each `on_hand` lowered by `need`,
including those that went negative); parts outside the BOM are untouched. -/
theorem C2_forced_build_deducts (db : Db) (project : String) (qty : Int)
    (pr : ProjectRow) (hq : 0 < qty)
    (hp : findProjCI db (pyLowerString (pyStrip project)) = some pr)
    (hnd : ((buildItems db pr.project_id).map BuildItem.part_id).Nodup) :
    (build_project db project qty true).1 =
      .ok ⟨pr.name, qty, shortagesOf (buildItems db pr.project_id) qty, true⟩ ∧
    shortagesOf (buildItems db pr.project_id) qty =
      (buildItems db pr.project_id).filterMap (fun it =>
        if it.on_hand < it.qty_per * qty then
          some ⟨it.part_key, it.value, it.subtype, it.qty_per * qty, it.on_hand,
                it.qty_per * qty - it.on_hand⟩
        else none) ∧
    buildItems (build_project db project qty true).2 pr.project_id =
      (buildItems db pr.project_id).map
        (fun it => { it with on_hand := it.on_hand - it.qty_per * qty }) ∧
    (∀ p ∈ db.parts,
      p.part_id ∉ (buildItems db pr.project_id).map BuildItem.part_id →
      p ∈ (build_project db project qty true).2.parts) := by
  have hbp : build_project db project qty true =
      (.ok ⟨pr.name, qty, shortagesOf (buildItems db pr.project_id) qty, true⟩,
       applyDeductions db (deductionsOf (buildItems db pr.project_id) qty)) := by
    unfold build_project
    rw [if_neg (by omega)]
    simp [hp]
  refine ⟨by rw [hbp], ?_, ?_, ?_⟩
  · unfold shortagesOf
    apply List.filterMap_congr
    intro it _
    dsimp only
    by_cases h : it.on_hand < it.qty_per * qty
    · rw [neg_sub, if_pos (by omega), if_pos h]
    · rw [if_neg (by omega), if_neg h]
  · rw [hbp]
    dsimp only
    rw [buildItems_applyDeductions]
    apply List.map_congr_left
    intro it hmem
    rw [needSum_deductionsOf qty it (buildItems db pr.project_id) hmem hnd]
  · intro p hpmem hnot
    rw [hbp]
    dsimp only
    rw [applyDeductions_eq]
    dsimp only
    apply List.mem_map.mpr
    refine ⟨p, hpmem, ?_⟩
    have h0 : needSum (deductionsOf (buildItems db pr.project_id) qty) p.part_id = 0 := by
      apply needSum_not_mem
      simpa [deductionsOf, List.map_map, Function.comp] using hnot
    rw [h0]
    simp

/-- Witness for `C2_forced_build_deducts` on the concrete scenario database:
the forced build of one unit drives `on_hand` from `1` to `-1` and still
reports the shortage. -/
theorem C2_witness :
    (build_project seaDb "seaholm" 1 true).1 =
      .ok ⟨"seaholm", 1, [⟨"C|100n|film", "100n", "film", 2, 1, 1⟩], true⟩ ∧
    buildItems (build_project seaDb "seaholm" 1 true).2 1 =
      [⟨1, "C|100n|film", "100n", "film", 2, -1⟩] := by
  have h := C2_forced_build_deducts seaDb "seaholm" 1
    ⟨1, "seaholm", "a.csv", "t"⟩ (by decide) (by decide) (by decide)
  constructor
  · rw [h.1]
    decide
  · rw [h.2.2.1]
    decide

/-- C3: both shopping-list surfaces are read-only — the database they hand
back is the input database, for every project name and every build quantity —
and, whenever the project resolves, the returned rows are exactly the BOM
items with `toOrder = qty_per * buildQty - on_hand > 0`, each carrying that
`toOrder` (the CLI surface computes this for *any* quantity; the Streamlit
surface first rejects `qty ≤ 0`). -/
theorem C3_shopping_list_readonly :
    (∀ (db : Db) (proj : String) (qty : Int), (shop_for_build db proj qty).2 = db) ∧
    (∀ (db : Db) (proj : String) (qty : Int), (cmd_shop db proj qty).2 = db) ∧
    (∀ (db : Db) (proj : String) (qty : Int) (pr : ProjectRow), 0 < qty →
      findProjCI db (pyLowerString (pyStrip proj)) = some pr →
      shop_for_build db proj qty =
        (.ok (pr.name, qty, (buildItems db pr.project_id).filterMap (fun it =>
          if it.qty_per * qty - it.on_hand > 0 then
            some ⟨it.part_key, it.value, it.subtype, it.qty_per * qty, it.on_hand,
                  it.qty_per * qty - it.on_hand⟩
          else none)), db)) ∧
    (∀ (db : Db) (proj : String) (qty : Int) (pr : ProjectRow),
      db.projects.find? (fun p => p.name == pyLowerString proj) = some pr →
      cmd_shop db proj qty =
        (.ok ((buildItems db pr.project_id).filterMap (fun it =>
          if it.qty_per * qty - it.on_hand > 0 then
            some ⟨it.part_key, it.value, it.subtype, it.qty_per * qty, it.on_hand,
                  it.qty_per * qty - it.on_hand⟩
          else none)), db)) := by
  have hrows : ∀ (items : List BuildItem) (qty : Int),
      shopRows items qty = items.filterMap (fun it =>
        if it.qty_per * qty - it.on_hand > 0 then
          some ⟨it.part_key, it.value, it.subtype, it.qty_per * qty, it.on_hand,
                it.qty_per * qty - it.on_hand⟩
        else none) := by
    intro items qty
    unfold shopRows
    apply List.filterMap_congr
    intro it _
    dsimp only
    by_cases h : it.qty_per * qty - it.on_hand > 0
    · simp only [max_eq_right (le_of_lt h)]
    · rw [max_eq_left (by omega), if_neg (by omega), if_neg h]
  refine ⟨?_, ?_, ?_, ?_⟩
  · intro db proj qty
    unfold shop_for_build
    by_cases hq : qty ≤ 0
    · rw [if_pos hq]
    · rw [if_neg hq]
      cases h : findProjCI db (pyLowerString (pyStrip proj)) <;> rfl
  · intro db proj qty
    unfold cmd_shop
    cases h : db.projects.find? (fun p => p.name == pyLowerString proj) <;> simp [h]
  · intro db proj qty pr hq hp
    unfold shop_for_build
    rw [if_neg (by omega)]
    simp [hp, hrows]
  · intro db proj qty pr hp
    unfold cmd_shop
    simp [hp, hrows]

/-- Witness for `C3_shopping_list_readonly` on the concrete scenario
database (including a `qty = 0` CLI query, which the CLI accepts). -/
theorem C3_witness :
    (shop_for_build seaDb "seaholm" 2).2 = seaDb ∧
    (cmd_shop seaDb "seaholm" 0).2 = seaDb ∧
    shop_for_build seaDb "seaholm" 2 =
      (.ok ("seaholm", 2, [⟨"C|100n|film", "100n", "film", 4, 1, 3⟩]), seaDb) ∧
    cmd_shop seaDb "seaholm" 0 = (.ok [], seaDb) := by
  refine ⟨C3_shopping_list_readonly.1 seaDb "seaholm" 2,
          C3_shopping_list_readonly.2.1 seaDb "seaholm" 0, ?_, ?_⟩
  · have h := C3_shopping_list_readonly.2.2.1 seaDb "seaholm" 2
      ⟨1, "seaholm", "a.csv", "t"⟩ (by decide) (by decide)
    rw [h]
    decide
  · have h := C3_shopping_list_readonly.2.2.2 seaDb "seaholm" 0
      ⟨1, "seaholm", "a.csv", "t"⟩ (by decide)
    rw [h]
    decide

/-! ## BOM-import lemmas

The import loop is decomposed into a "core" acting only on the parts table
and the id counter; `insertRows` is proved equal to the core plus the BOM
item appends, and the core is proved stable under re-running the same rows. -/

/-- `get_or_create_part` acts on a database exactly as its core acts on the
parts/counter pair. -/
theorem get_or_create_part_core (db : Db) (pfx value subtype footprint : String) :
    get_or_create_part db pfx value subtype footprint =
      ({ db with
          parts := (getOrCreateCore (db.parts, db.next_part_id) pfx value subtype footprint).1.1,
          next_part_id := (getOrCreateCore (db.parts, db.next_part_id) pfx value subtype footprint).1.2 },
       (getOrCreateCore (db.parts, db.next_part_id) pfx value subtype footprint).2) := by
  unfold get_or_create_part getOrCreateCore
  cases h : db.parts.find? (fun p => p.part_key == make_part_key pfx value subtype) <;>
    simp [h]

/-- The import loop restricted to the parts/counter pair; also returns the
`(part_id, qty_per)` pairs assigned to the rows, in order. -/
def insertRowsCore (pst : List PartRow × Nat) :
    List BomRow → (List PartRow × Nat) × List (Nat × Int)
  | [] => (pst, [])
  | r :: rest =>
    let pfx := ref_pfx r.ref
    let subtype := if pfx == "C" then cap_subtype_from_footprint r.fp else ""
    let rr := getOrCreateCore pst pfx r.val subtype r.fp
    let rec_ := insertRowsCore rr.1 rest
    (rec_.1, (rr.2, r.qty) :: rec_.2)

/-- The core only appends to the parts list. -/
theorem getOrCreateCore_parts_pre (pst : List PartRow × Nat)
    (pfx value subtype footprint : String) :
    pst.1 <+: (getOrCreateCore pst pfx value subtype footprint).1.1 := by
  unfold getOrCreateCore
  cases h : pst.1.find? (fun p => p.part_key == make_part_key pfx value subtype) <;>
    simp [h]

/-- The import-loop core only appends to the parts list. -/
theorem insertRowsCore_parts_pre (rows : List BomRow) :
    ∀ pst : List PartRow × Nat, pst.1 <+: (insertRowsCore pst rows).1.1 := by
  induction rows with
  | nil => intro pst; simp [insertRowsCore]
  | cons r rest ih =>
    intro pst
    simp only [insertRowsCore]
    exact (getOrCreateCore_parts_pre pst _ _ _ _).trans (ih _)

/-- First-match lookup is stable under appending rows on the right. -/
theorem find?_of_isPrefix {α : Type} {p : α → Bool} {l₁ l₂ : List α} {a : α}
    (h : l₁ <+: l₂) (hf : l₁.find? p = some a) : l₂.find? p = some a := by
  obtain ⟨t, rfl⟩ := h
  rw [List.find?_append, hf]
  rfl

/-- After the core has processed a row's part, its key resolves (first match)
to the very part id the core returned. -/
theorem getOrCreateCore_found (pst : List PartRow × Nat)
    (pfx value subtype footprint : String) :
    ∃ q : PartRow,
      (getOrCreateCore pst pfx value subtype footprint).1.1.find?
          (fun p => p.part_key == make_part_key pfx value subtype) = some q ∧
      q.part_id = (getOrCreateCore pst pfx value subtype footprint).2 := by
  unfold getOrCreateCore
  cases h : pst.1.find? (fun p => p.part_key == make_part_key pfx value subtype) with
  | some p =>
    refine ⟨p, ?_, ?_⟩ <;> simp [h]
  | none =>
    refine ⟨{ part_id := pst.2, part_key := make_part_key pfx value subtype,
              pfx := pfx, value := value, subtype := subtype,
              example_footprint := footprint, location := "", on_hand := 0,
              min_stock := 0 }, ?_, ?_⟩ <;>
      simp [h, List.find?_append]

/-- When a row's key already resolves, the core returns the state unchanged
together with the resolved part's id. -/
theorem getOrCreateCore_of_found (pst : List PartRow × Nat)
    (pfx value subtype footprint : String) (q : PartRow)
    (hfind : pst.1.find? (fun p => p.part_key == make_part_key pfx value subtype) = some q) :
    getOrCreateCore pst pfx value subtype footprint = (pst, q.part_id) := by
  simp only [getOrCreateCore]
  rw [hfind]

/-- Re-running the import-loop core over the same rows from its own final
state changes nothing and assigns the same part ids: every key now resolves
to the part the first run found or created. -/
theorem insertRowsCore_stable (rows : List BomRow) :
    ∀ pst : List PartRow × Nat,
      insertRowsCore (insertRowsCore pst rows).1 rows = insertRowsCore pst rows := by
  induction rows with
  | nil => intro pst; rfl
  | cons r rest ih =>
    intro pst
    obtain ⟨q, hq, hid⟩ := getOrCreateCore_found pst (ref_pfx r.ref) r.val
      (if ref_pfx r.ref == "C" then cap_subtype_from_footprint r.fp else "") r.fp
    have hfind := find?_of_isPrefix
      (insertRowsCore_parts_pre rest
        (getOrCreateCore pst (ref_pfx r.ref) r.val
          (if ref_pfx r.ref == "C" then cap_subtype_from_footprint r.fp else "") r.fp).1)
      hq
    simp only [insertRowsCore]
    rw [getOrCreateCore_of_found _ _ _ _ _ q hfind]
    dsimp only
    rw [ih, hid]

/-- Small helper lemmas about the projects upsert. -/
theorem upsertProject_of_found (db : Db) (n src ts : String) (pr : ProjectRow)
    (h : db.projects.find? (fun q => q.name == n) = some pr) :
    upsertProject db n src ts =
      ({ db with
          projects := db.projects.map fun q =>
            if q.name == n then { q with source_csv := src, imported_at := ts }
            else q },
       pr.project_id) := by
  unfold upsertProject
  rw [h]

/-- Deleting a project's items twice is the same as once. -/
theorem filter_bom_idem (l : List BomItemRow) (P : Nat) :
    List.filter (fun b => !(b.project_id == P))
      (List.filter (fun b => !(b.project_id == P)) l) =
    List.filter (fun b => !(b.project_id == P)) l := by
  rw [List.filter_filter]
  congr 1
  funext a
  rw [Bool.and_self]

/-- Freshly inserted items of a project are all removed by deleting that
project's items. -/
theorem filter_bom_new (asg : List (Nat × Int)) (P : Nat) :
    List.filter (fun b => !(b.project_id == P))
      (asg.map fun pq => (⟨P, pq.1, pq.2⟩ : BomItemRow)) = [] := by
  apply List.filter_eq_nil_iff.mpr
  intro b hb
  obtain ⟨pq, _, rfl⟩ := List.mem_map.mp hb
  simp

/-- The parts/counter core run of one import. -/
def importCore (db : Db) (raws : List RawBomRow) :
    (List PartRow × Nat) × List (Nat × Int) :=
  insertRowsCore (db.parts, db.next_part_id) (read_kicad_bom_rows raws)

/-- The database produced by one import, spelled out field by field:
parts/counter from the core, the projects table and project counter as given,
the project's old items deleted and the assigned ones appended. -/
def importResult (db : Db) (projs : List ProjectRow) (nproj : Nat) (P : Nat)
    (raws : List RawBomRow) : Db :=
  { parts := (importCore db raws).1.1,
    projects := projs,
    bom_items := (db.bom_items.filter fun b => !(b.project_id == P)) ++
      ((importCore db raws).2.map fun pq => ⟨P, pq.1, pq.2⟩),
    next_part_id := (importCore db raws).1.2,
    next_project_id := nproj }

/-- C9 counterexample: `norm_value` is not idempotent.  `"ohm"` is inside the
simple-value alphabet and normalizes to `"Ω"` (U+03A9); re-normalizing, the
`lower()` call runs *before* the `"ohm" → "Ω"` replacement and Python
lowercases U+03A9 to `"ω"` (U+03C9), so the canonical form does not
re-normalize to itself. -/
theorem C9_counterexample :
    norm_value "ohm" = "Ω" ∧ norm_value (norm_value "ohm") = "ω" ∧
    norm_value (norm_value "ohm") ≠ norm_value "ohm" := by
  decide

/-! ### Whitespace-normalization lemmas for the amended C9 -/

/-- Reading a whitespace-free block just moves it into the accumulator. -/
theorem pySplitAux_word :
    ∀ w : List Char, (∀ c ∈ w, pySpace c = false) →
      ∀ l acc : List Char, pySplitAux (w ++ l) acc = pySplitAux l (w.reverse ++ acc) := by
  intro w
  induction w with
  | nil => intro _ l acc; rfl
  | cons c w' ih =>
    intro hw l acc
    have hc : pySpace c = false := hw c (List.mem_cons_self c w')
    show pySplitAux (c :: (w' ++ l)) acc = _
    rw [show pySplitAux (c :: (w' ++ l)) acc = pySplitAux (w' ++ l) (c :: acc) by
      simp [pySplitAux, hc]]
    rw [ih (fun d hd => hw d (List.mem_cons_of_mem c hd)) l (c :: acc)]
    simp

/-- A nonempty whitespace-free list splits into itself alone. -/
theorem pySplit_single (l : List Char) (hne : l ≠ [])
    (hsp : ∀ c ∈ l, pySpace c = false) : pySplit l = [l] := by
  have h := pySplitAux_word l hsp [] []
  rw [List.append_nil] at h
  unfold pySplit
  rw [h]
  simp [pySplitAux, hne]

/-- Every word produced by the splitter is nonempty and whitespace-free. -/
theorem pySplitAux_words_spacefree :
    ∀ l acc : List Char, (∀ c ∈ acc, pySpace c = false) →
      ∀ w ∈ pySplitAux l acc, w ≠ [] ∧ ∀ c ∈ w, pySpace c = false := by
  intro l
  induction l with
  | nil =>
    intro acc hacc w hw
    by_cases h : acc = []
    · simp [pySplitAux, h] at hw
    · simp only [pySplitAux, h, if_false] at hw
      rcases List.mem_singleton.mp hw with rfl
      exact ⟨by simp [h], fun d hd => hacc d (List.mem_reverse.mp hd)⟩
  | cons c cs ih =>
    intro acc hacc w hw
    simp only [pySplitAux] at hw
    by_cases hc : pySpace c
    · rw [if_pos hc] at hw
      by_cases ha : acc = []
      · rw [if_pos ha] at hw
        exact ih [] (by simp) w hw
      · rw [if_neg ha] at hw
        rcases List.mem_cons.mp hw with rfl | hw'
        · exact ⟨by simp [ha], fun d hd => hacc d (List.mem_reverse.mp hd)⟩
        · exact ih [] (by simp) w hw'
    · rw [if_neg hc] at hw
      refine ih (c :: acc) ?_ w hw
      intro d hd
      rcases List.mem_cons.mp hd with rfl | h'
      · simpa using hc
      · exact hacc d h'

/-- Splitting the single-space join of nonempty whitespace-free words
recovers the words. -/
theorem pySplit_intercalate :
    ∀ ws : List (List Char),
      (∀ w ∈ ws, w ≠ [] ∧ ∀ c ∈ w, pySpace c = false) →
      pySplit (List.intercalate [' '] ws) = ws := by
  intro ws
  induction ws with
  | nil => intro _; rfl
  | cons w ws' ih =>
    intro h
    cases ws' with
    | nil =>
      rw [show List.intercalate [' '] [w] = w by
        simp [List.intercalate]]
      exact pySplit_single w (h w (List.mem_cons_self w [])).1
        (h w (List.mem_cons_self w [])).2
    | cons v ws'' =>
      rw [show List.intercalate [' '] (w :: v :: ws'') =
            w ++ (' ' :: List.intercalate [' '] (v :: ws'')) by
        simp [List.intercalate]]
      unfold pySplit
      rw [pySplitAux_word w (h w (List.mem_cons_self w _)).2 _ []]
      have hs : pySpace ' ' = true := rfl
      have hwne : w.reverse ++ [] ≠ [] := by
        simp [(h w (List.mem_cons_self w _)).1]
      simp only [pySplitAux, hs, if_true, if_neg hwne]
      rw [List.append_nil, List.reverse_reverse]
      congr 1
      exact ih fun u hu => h u (List.mem_cons_of_mem w hu)

/-- `norm_space` is idempotent. -/
theorem norm_space_idem (s : String) : norm_space (norm_space s) = norm_space s := by
  unfold norm_space
  congr 1
  show List.intercalate [' '] (pySplit (List.intercalate [' '] (pySplit s.toList))) = _
  rw [pySplit_intercalate (pySplit s.toList)
    (fun w hw => pySplitAux_words_spacefree s.toList [] (by simp) w hw)]

/-- `norm_space` fixes a nonempty whitespace-free string. -/
theorem norm_space_spacefree (l : List Char) (hne : l ≠ [])
    (hsp : ∀ c ∈ l, pySpace c = false) : norm_space l.asString = l.asString := by
  unfold norm_space
  show (List.intercalate [' '] (pySplit l)).asString = _
  rw [pySplit_single l hne hsp]
  simp [List.intercalate]

/-! ### Replacement and lowercase-alphabet lemmas for the amended C9 -/

/-- Whether `"ohm"` occurs in the list (left-to-right scan, mirroring the
positions `replaceOhm` rewrites). -/
def hasOhm : List Char → Bool
  | [] => false
  | [_] => false
  | [_, _] => false
  | c :: d :: e :: rest =>
    if c = 'o' ∧ d = 'h' ∧ e = 'm' then true else hasOhm (d :: e :: rest)

/-- Without an occurrence of `"ohm"`, the replacement is the identity. -/
theorem replaceOhm_of_not_hasOhm :
    ∀ l : List Char, hasOhm l = false → replaceOhm l = l := by
  intro l
  induction l using replaceOhm.induct with
  | case1 => intro _; rfl
  | case2 c => intro _; rfl
  | case3 c d => intro _; rfl
  | case4 c d e rest hcond ih =>
    intro h
    rw [hasOhm, if_pos hcond] at h
    exact absurd h (by simp)
  | case5 c d e rest hcond ih =>
    intro h
    rw [hasOhm, if_neg hcond] at h
    rw [replaceOhm, if_neg hcond, ih h]

/-- With an occurrence of `"ohm"`, the replacement introduces `'Ω'`. -/
theorem omega_mem_replaceOhm_of_hasOhm :
    ∀ l : List Char, hasOhm l = true → 'Ω' ∈ replaceOhm l := by
  intro l
  induction l using replaceOhm.induct with
  | case1 => intro h; exact absurd h (by simp [hasOhm])
  | case2 c => intro h; exact absurd h (by simp [hasOhm])
  | case3 c d => intro h; exact absurd h (by simp [hasOhm])
  | case4 c d e rest hcond ih =>
    intro _
    rw [replaceOhm, if_pos hcond]
    exact List.mem_cons_self _ _
  | case5 c d e rest hcond ih =>
    intro h
    rw [hasOhm, if_neg hcond] at h
    rw [replaceOhm, if_neg hcond]
    exact List.mem_cons_of_mem c (ih h)

/-- Bridging `List.contains` on the alphabet with membership. -/
theorem simple_contains_iff (c : Char) :
    simple_chars.contains c = true ↔ c ∈ simple_chars :=
  List.elem_iff

/-- Lowercasing any alphabet character never yields whitespace. -/
theorem simple_lower_not_space (c : Char) (hc : c ∈ simple_chars) :
    pySpace (pyLowerChar c) = false := by
  fin_cases hc <;> decide

/-- Lowercasing is idempotent on the alphabet. -/
theorem simple_lower_idem (c : Char) (hc : c ∈ simple_chars) :
    pyLowerChar (pyLowerChar c) = pyLowerChar c := by
  fin_cases hc <;> decide

/-- Lowercasing keeps non-omega alphabet characters inside the alphabet. -/
theorem simple_lower_mem (c : Char) (hc : c ∈ simple_chars) (h : c ≠ 'Ω') :
    pyLowerChar c ∈ simple_chars := by
  fin_cases hc <;> first | decide | exact absurd rfl h

/-- `norm_value` on a string already fixed by whitespace normalization only
runs the simple-value branch decision. -/
theorem norm_value_of_fixed (t : String) (hns : norm_space t = t) (hne : t ≠ "") :
    norm_value t =
      if t.toList.all (fun c => simple_chars.contains c) then
        (replaceOhm (t.toList.map pyLowerChar)).asString
      else t := by
  unfold norm_value
  rw [hns, if_neg hne]

/-- C9 (amended): `norm_value` is idempotent on every input whose normalized
form does not contain `'Ω'` — re-normalizing such a stored canonical value
returns it unchanged.  (The counterexample forces exactly the exception: a
normalized value containing `'Ω'` is lowercased to `'ω'` on re-entry.) -/
theorem C9_norm_value_idem_no_omega (s : String)
    (h : 'Ω' ∉ (norm_value s).toList) :
    norm_value (norm_value s) = norm_value s := by
  by_cases h0 : norm_space s = ""
  · have h1 : norm_value s = "" := by
      unfold norm_value
      rw [if_pos h0, h0]
    rw [h1]
    decide
  · by_cases hall : (norm_space s).toList.all (fun c => simple_chars.contains c) = true
    case neg =>
      have h1 : norm_value s = norm_space s := by
        unfold norm_value
        rw [if_neg h0, if_neg hall]
      rw [h1, norm_value_of_fixed _ (norm_space_idem s) h0, if_neg hall]
    case pos =>
      have hmem : ∀ c ∈ (norm_space s).toList, c ∈ simple_chars := by
        intro c hc
        exact (simple_contains_iff c).mp (List.all_eq_true.mp hall c hc)
      have h1 : norm_value s =
          (replaceOhm ((norm_space s).toList.map pyLowerChar)).asString := by
        unfold norm_value
        rw [if_neg h0, if_pos hall]
      have hΩ : 'Ω' ∉ replaceOhm ((norm_space s).toList.map pyLowerChar) := by
        rw [h1] at h
        exact h
      have hno : hasOhm ((norm_space s).toList.map pyLowerChar) = false := by
        cases hh : hasOhm ((norm_space s).toList.map pyLowerChar) with
        | false => rfl
        | true => exact absurd (omega_mem_replaceOhm_of_hasOhm _ hh) hΩ
      have h2 : norm_value s = ((norm_space s).toList.map pyLowerChar).asString := by
        rw [h1, replaceOhm_of_not_hasOhm _ hno]
      have hune : (norm_space s).toList ≠ [] := by
        intro hnil
        apply h0
        have he : norm_space s = ((norm_space s).toList).asString := rfl
        rw [he, hnil]
        rfl
      have htne : ((norm_space s).toList.map pyLowerChar) ≠ [] := by
        intro hx
        apply hune
        simpa using hx
      have hsp : ∀ c ∈ (norm_space s).toList.map pyLowerChar, pySpace c = false := by
        intro c hc
        obtain ⟨d, hd, rfl⟩ := List.mem_map.mp hc
        exact simple_lower_not_space d (hmem d hd)
      have hns2 : norm_space (norm_value s) = norm_value s := by
        rw [h2]
        exact norm_space_spacefree _ htne hsp
      have hne2 : norm_value s ≠ "" := by
        rw [h2]
        intro hbad
        apply htne
        have h3 : (((norm_space s).toList.map pyLowerChar).asString).toList =
            ("" : String).toList := by rw [hbad]
        exact h3
      rw [norm_value_of_fixed _ hns2 hne2]
      by_cases hΩu : 'Ω' ∈ (norm_space s).toList
      · have hω : 'ω' ∈ (norm_value s).toList := by
          rw [h2]
          show 'ω' ∈ (norm_space s).toList.map pyLowerChar
          exact List.mem_map.mpr ⟨'Ω', hΩu, by decide⟩
        have hallt : (norm_value s).toList.all (fun c => simple_chars.contains c) = false :=
          List.all_eq_false.mpr ⟨'ω', hω, by decide⟩
        rw [if_neg (by rw [hallt]; simp)]
      · have hallt : (norm_value s).toList.all (fun c => simple_chars.contains c) = true := by
          apply List.all_eq_true.mpr
          intro c hc
          rw [h2] at hc
          have hc' : c ∈ (norm_space s).toList.map pyLowerChar := hc
          obtain ⟨d, hd, rfl⟩ := List.mem_map.mp hc'
          exact (simple_contains_iff _).mpr
            (simple_lower_mem d (hmem d hd) (fun hdd => hΩu (hdd ▸ hd)))
        have hmap2 : (norm_value s).toList.map pyLowerChar = (norm_value s).toList := by
          rw [h2]
          show ((norm_space s).toList.map pyLowerChar).map pyLowerChar = _
          rw [List.map_map]
          apply List.map_congr_left
          intro d hd
          show pyLowerChar (pyLowerChar d) = pyLowerChar d
          exact simple_lower_idem d (hmem d hd)
        have hno2 : hasOhm (norm_value s).toList = false := by
          rw [h2]
          show hasOhm ((norm_space s).toList.map pyLowerChar) = false
          exact hno
        rw [if_pos hallt, hmap2, replaceOhm_of_not_hasOhm _ hno2]
        rfl

/-- Witness for `C9_norm_value_idem_no_omega` at `"10K"` and `"4.7 kΩ rated"`:
an omega-free canonical value re-normalizes to itself. -/
theorem C9_witness :
    'Ω' ∉ (norm_value "10K").toList ∧
    norm_value (norm_value "10K") = norm_value "10K" := by
  refine ⟨by decide, C9_norm_value_idem_no_omega "10K" (by decide)⟩

/-! ### The fallible import loop: success characterization and re-run -/

/-- A successful run of the fallible import loop produces exactly the
parts/counter of the total core together with the appended assigned items. -/
theorem insertRowsS_ok_char (rows : List BomRow) :
    ∀ (pst : List PartRow × Nat) (base : List BomItemRow) (pid : Nat)
      (st : List PartRow × Nat × List BomItemRow),
      insertRowsS (pst.1, pst.2, base) pid rows = .ok st →
      st = ((insertRowsCore pst rows).1.1, (insertRowsCore pst rows).1.2,
            base ++ ((insertRowsCore pst rows).2.map fun pq => ⟨pid, pq.1, pq.2⟩)) := by
  induction rows with
  | nil =>
    intro pst base pid st h
    simp only [insertRowsS, Except.ok.injEq] at h
    rw [← h]
    simp [insertRowsCore]
  | cons r rest ih =>
    intro pst base pid st h
    simp only [insertRowsS, Prod.mk.eta] at h
    simp only [insertRowsCore, Prod.mk.eta]
    generalize hsub :
      (if (ref_pfx r.ref == "C") = true then cap_subtype_from_footprint r.fp else "") =
      sub at h ⊢
    by_cases hc : (base.any fun b =>
        b.project_id == pid &&
        b.part_id == (getOrCreateCore pst (ref_pfx r.ref) r.val sub r.fp).2) = true
    · rw [if_pos hc] at h
      exact absurd h (by simp)
    · rw [if_neg hc] at h
      have h2 := ih _ _ pid st h
      rw [h2]
      simp

/-- Re-running the fallible loop over the same rows, from the parts/counter
its first successful run produced and the same item base, succeeds again with
the same assignments: every key resolves to the part the first run found or
created, and every primary-key check evaluates exactly as it did the first
time. -/
theorem insertRowsS_ok_again (rows : List BomRow) :
    ∀ (pst : List PartRow × Nat) (base : List BomItemRow) (pid : Nat)
      (st : List PartRow × Nat × List BomItemRow),
      insertRowsS (pst.1, pst.2, base) pid rows = .ok st →
      insertRowsS ((insertRowsCore pst rows).1.1, (insertRowsCore pst rows).1.2, base)
          pid rows =
        .ok ((insertRowsCore pst rows).1.1, (insertRowsCore pst rows).1.2,
             base ++ ((insertRowsCore pst rows).2.map fun pq => ⟨pid, pq.1, pq.2⟩)) := by
  induction rows with
  | nil =>
    intro pst base pid st _
    simp [insertRowsS, insertRowsCore]
  | cons r rest ih =>
    intro pst base pid st h
    simp only [insertRowsS, Prod.mk.eta] at h
    simp only [insertRowsS, insertRowsCore, Prod.mk.eta]
    generalize hsub :
      (if (ref_pfx r.ref == "C") = true then cap_subtype_from_footprint r.fp else "") =
      sub at h ⊢
    by_cases hc : (base.any fun b =>
        b.project_id == pid &&
        b.part_id == (getOrCreateCore pst (ref_pfx r.ref) r.val sub r.fp).2) = true
    · rw [if_pos hc] at h
      exact absurd h (by simp)
    · rw [if_neg hc] at h
      obtain ⟨q, hq, hid⟩ := getOrCreateCore_found pst (ref_pfx r.ref) r.val sub r.fp
      have hfind := find?_of_isPrefix
        (insertRowsCore_parts_pre rest
          (getOrCreateCore pst (ref_pfx r.ref) r.val sub r.fp).1)
        hq
      rw [getOrCreateCore_of_found _ _ _ _ _ q hfind]
      dsimp only
      rw [hid, if_neg hc, ih _ _ pid st h]
      simp

/-- A first import whose insert loop succeeds commits to the
`importResult`. -/
theorem import_bom_ok_eq (db : Db) (project src ts : String)
    (raws : List RawBomRow) (dbU : Db) (P : Nat)
    (hu : upsertProject db project src ts = (dbU, P))
    (hparts : dbU.parts = db.parts)
    (hnext : dbU.next_part_id = db.next_part_id)
    (hbom : dbU.bom_items = db.bom_items)
    (st : List PartRow × Nat × List BomItemRow)
    (hS : insertRowsS (db.parts, db.next_part_id,
        db.bom_items.filter fun b => !(b.project_id == P)) P
        (read_kicad_bom_rows raws) = .ok st) :
    import_bom db project raws src ts =
      (.ok (), importResult db dbU.projects dbU.next_project_id P raws) := by
  unfold import_bom
  rw [hu]
  dsimp only
  rw [hparts, hnext, hbom, hS]
  rw [insertRowsS_ok_char (read_kicad_bom_rows raws) (db.parts, db.next_part_id)
    (db.bom_items.filter fun b => !(b.project_id == P)) P st hS]
  rfl

/-- An import whose insert loop raises rolls the transaction back: the
caller sees the error and the original database. -/
theorem import_bom_error_eq (db : Db) (project src ts : String)
    (raws : List RawBomRow) (dbU : Db) (P : Nat)
    (hu : upsertProject db project src ts = (dbU, P))
    (hparts : dbU.parts = db.parts)
    (hnext : dbU.next_part_id = db.next_part_id)
    (hbom : dbU.bom_items = db.bom_items)
    (e : String)
    (hS : insertRowsS (db.parts, db.next_part_id,
        db.bom_items.filter fun b => !(b.project_id == P)) P
        (read_kicad_bom_rows raws) = .error e) :
    import_bom db project raws src ts = (.error e, db) := by
  unfold import_bom
  rw [hu]
  dsimp only
  rw [hparts, hnext, hbom, hS]

/-- Importing the same rows again into an `importResult` only rewrites the
project metadata carried in the `projs` argument. -/
theorem import_bom_into_importResult (db : Db) (project src2 ts2 : String)
    (raws : List RawBomRow) (projs : List ProjectRow) (nproj P : Nat)
    (pr2 : ProjectRow) (st : List PartRow × Nat × List BomItemRow)
    (hfind2 : projs.find? (fun q => q.name == project) = some pr2)
    (hP2 : pr2.project_id = P)
    (hS : insertRowsS (db.parts, db.next_part_id,
        db.bom_items.filter fun b => !(b.project_id == P)) P
        (read_kicad_bom_rows raws) = .ok st) :
    import_bom (importResult db projs nproj P raws) project raws src2 ts2 =
      (.ok (),
       importResult db
         (projs.map fun q =>
           if q.name == project then { q with source_csv := src2, imported_at := ts2 }
           else q)
         nproj P raws) := by
  have hu2 : upsertProject (importResult db projs nproj P raws) project src2 ts2 =
      ({ importResult db projs nproj P raws with
          projects := projs.map fun q =>
            if q.name == project then { q with source_csv := src2, imported_at := ts2 }
            else q },
       P) := by
    rw [upsertProject_of_found (importResult db projs nproj P raws) project src2 ts2
      pr2 hfind2, hP2]
    rfl
  unfold import_bom
  rw [hu2]
  dsimp only [importResult, importCore]
  rw [List.filter_append, filter_bom_idem, filter_bom_new, List.append_nil]
  rw [insertRowsS_ok_again (read_kicad_bom_rows raws) (db.parts, db.next_part_id)
    (db.bom_items.filter fun b => !(b.project_id == P)) P st hS]

/-- C4: for every project name and BOM row sequence, if the first import
succeeds, importing the same rows again succeeds and produces exactly the
database of the first import with only the project's `source_csv` /
`imported_at` provenance metadata rewritten — same BOM items, same parts,
same counters (no duplication, no stale items).  If the first import fails
(the `bom_items` primary key rejects two rows resolving to one part), the
transaction rolls back, the database is unchanged, and the re-import fails
identically, again leaving the original database. -/
theorem C4_import_idempotent (db : Db) (project : String) (raws : List RawBomRow)
    (src1 ts1 src2 ts2 : String) :
    ((import_bom db project raws src1 ts1).1 = .ok () →
      import_bom (import_bom db project raws src1 ts1).2 project raws src2 ts2 =
        (.ok (),
         { (import_bom db project raws src1 ts1).2 with
           projects := (import_bom db project raws src1 ts1).2.projects.map fun q =>
             if q.name == project then { q with source_csv := src2, imported_at := ts2 }
             else q })) ∧
    (∀ e : String, (import_bom db project raws src1 ts1).1 = .error e →
      import_bom (import_bom db project raws src1 ts1).2 project raws src2 ts2 =
        (.error e, db) ∧
      (import_bom db project raws src1 ts1).2 = db) := by
  cases hfind : db.projects.find? (fun q => q.name == project) with
  | some p =>
    have hu1 := upsertProject_of_found db project src1 ts1 p hfind
    have hu2 := upsertProject_of_found db project src2 ts2 p hfind
    have hfind2 :
        (db.projects.map fun q =>
          if q.name == project then { q with source_csv := src1, imported_at := ts1 }
          else q).find? (fun q => q.name == project) =
        some (if p.name == project then { p with source_csv := src1, imported_at := ts1 }
              else p) := by
      rw [List.find?_map]
      have hcomp : ((fun q : ProjectRow => q.name == project) ∘ fun q =>
          if q.name == project then { q with source_csv := src1, imported_at := ts1 }
          else q) = fun q : ProjectRow => q.name == project := by
        funext q
        by_cases h : q.name == project <;> simp [Function.comp, h]
      rw [hcomp, hfind]
      rfl
    have hname : (p.name == project) = true := by
      have h2 := @List.find?_some ProjectRow (fun q => q.name == project) p db.projects hfind
      exact h2
    have hP2 :
        (if p.name == project then { p with source_csv := src1, imported_at := ts1 }
         else p).project_id = p.project_id := by
      rw [if_pos hname]
    cases hS : insertRowsS (db.parts, db.next_part_id,
        db.bom_items.filter fun b => !(b.project_id == p.project_id)) p.project_id
        (read_kicad_bom_rows raws) with
    | ok st =>
      have h1 := import_bom_ok_eq db project src1 ts1 raws _ p.project_id hu1
        rfl rfl rfl st hS
      constructor
      · intro _
        rw [h1]
        exact import_bom_into_importResult db project src2 ts2 raws _ _ _ _ st
          hfind2 hP2 hS
      · intro e he
        rw [h1] at he
        exact absurd he (by simp)
    | error e0 =>
      have h1 := import_bom_error_eq db project src1 ts1 raws _ p.project_id hu1
        rfl rfl rfl e0 hS
      constructor
      · intro hok
        rw [h1] at hok
        exact absurd hok (by simp)
      · intro e he
        rw [h1] at he ⊢
        have he2 : e0 = e := by simpa using he
        subst he2
        exact ⟨import_bom_error_eq db project src2 ts2 raws _ p.project_id hu2
          rfl rfl rfl e0 hS, rfl⟩
  | none =>
    have hu1 : upsertProject db project src1 ts1 =
        ({ db with
            projects := db.projects ++
              [({ project_id := db.next_project_id, name := project,
                  source_csv := src1, imported_at := ts1 } : ProjectRow)],
            next_project_id := db.next_project_id + 1 },
         db.next_project_id) := by
      unfold upsertProject
      rw [hfind]
    have hu2 : upsertProject db project src2 ts2 =
        ({ db with
            projects := db.projects ++
              [({ project_id := db.next_project_id, name := project,
                  source_csv := src2, imported_at := ts2 } : ProjectRow)],
            next_project_id := db.next_project_id + 1 },
         db.next_project_id) := by
      unfold upsertProject
      rw [hfind]
    have hfind2 :
        (db.projects ++
          [({ project_id := db.next_project_id, name := project,
              source_csv := src1, imported_at := ts1 } : ProjectRow)]).find?
          (fun q => q.name == project) =
        some ({ project_id := db.next_project_id, name := project,
                source_csv := src1, imported_at := ts1 } : ProjectRow) := by
      rw [List.find?_append, hfind]
      simp
    cases hS : insertRowsS (db.parts, db.next_part_id,
        db.bom_items.filter fun b => !(b.project_id == db.next_project_id))
        db.next_project_id (read_kicad_bom_rows raws) with
    | ok st =>
      have h1 := import_bom_ok_eq db project src1 ts1 raws _ db.next_project_id hu1
        rfl rfl rfl st hS
      constructor
      · intro _
        rw [h1]
        exact import_bom_into_importResult db project src2 ts2 raws _ _ _ _ st
          hfind2 rfl hS
      · intro e he
        rw [h1] at he
        exact absurd he (by simp)
    | error e0 =>
      have h1 := import_bom_error_eq db project src1 ts1 raws _ db.next_project_id hu1
        rfl rfl rfl e0 hS
      constructor
      · intro hok
        rw [h1] at hok
        exact absurd hok (by simp)
      · intro e he
        rw [h1] at he ⊢
        have he2 : e0 = e := by simpa using he
        subst he2
        exact ⟨import_bom_error_eq db project src2 ts2 raws _ db.next_project_id hu2
          rfl rfl rfl e0 hS, rfl⟩

/-- Empty database used for the C4 witness. -/
def c4db : Db := ⟨[], [], [], 1, 1⟩

/-- BOM row `R1,10K,Res_0805,1` — resolves to part key `R|10k|`. -/
def rawR1 : RawBomRow := ⟨"R1", "10K", "Res_0805", "1", ""⟩

/-- BOM row `R2,10K,Res_0805,1` — resolves to the same part key `R|10k|`,
so importing it together with `rawR1` violates the `bom_items` primary key. -/
def rawR2 : RawBomRow := ⟨"R2", "10K", "Res_0805", "1", ""⟩

/-- Witness for C4 at concrete inputs: importing `[rawR1]` succeeds and a
re-import only rewrites the provenance columns; importing `[rawR1, rawR2]`
(two rows resolving to one part) raises the `bom_items` primary-key error,
leaves the database unchanged, and fails identically on re-import. -/
theorem C4_witness :
    ((import_bom c4db "blinky" [rawR1] "bom.csv" "t1").1 = .ok () ∧
     import_bom (import_bom c4db "blinky" [rawR1] "bom.csv" "t1").2 "blinky"
         [rawR1] "bom2.csv" "t2" =
       (.ok (),
        { (import_bom c4db "blinky" [rawR1] "bom.csv" "t1").2 with
          projects :=
            (import_bom c4db "blinky" [rawR1] "bom.csv" "t1").2.projects.map fun q =>
              if q.name == "blinky" then
                { q with source_csv := "bom2.csv", imported_at := "t2" }
              else q })) ∧
    ((import_bom c4db "blinky" [rawR1, rawR2] "bom.csv" "t1").1 =
       .error "UNIQUE constraint failed: bom_items.project_id, bom_items.part_id" ∧
     import_bom (import_bom c4db "blinky" [rawR1, rawR2] "bom.csv" "t1").2 "blinky"
         [rawR1, rawR2] "bom2.csv" "t2" =
       (.error "UNIQUE constraint failed: bom_items.project_id, bom_items.part_id",
        c4db) ∧
     (import_bom c4db "blinky" [rawR1, rawR2] "bom.csv" "t1").2 = c4db) := by
  refine ⟨⟨by decide, ?_⟩, by decide, ?_⟩
  · exact (C4_import_idempotent c4db "blinky" [rawR1] "bom.csv" "t1" "bom2.csv" "t2").1
      (by decide)
  · exact (C4_import_idempotent c4db "blinky" [rawR1, rawR2] "bom.csv" "t1"
      "bom2.csv" "t2").2
      "UNIQUE constraint failed: bom_items.project_id, bom_items.part_id" (by decide)
